import Mathlib

/-!
Verification development for the agentforge decision and aggregation layer
(model selection, agent confidence scoring, manager workflow streaming,
orchestrator entry points).  Python sources are shallowly embedded as pure
Lean functions; the asynchronous generators become functions from explicit
oracle inputs (the behaviour of LLM calls, specialists and web searches)
to the list of emitted stream events.
-/

namespace AgentForge

/-- Does `needle` occur as a contiguous run inside `hay`? -/
def charsContain (needle : List Char) : List Char → Bool
  | [] => needle.isEmpty
  | c :: rest => needle.isPrefixOf (c :: rest) || charsContain needle rest

/-- Python `needle in hay` substring containment on strings. -/
def strContains (hay needle : String) : Bool :=
  charsContain needle.toList hay.toList

/-- Python `str.lower()` (per-character lowercasing). -/
def lowerStr (s : String) : String :=
  String.mk (s.toList.map Char.toLower)

/-- Python truthiness of an `Optional[str]` value: `None` and `""` are falsy. -/
def optStrTruthy : Option String → Bool
  | none => false
  | some s => !(s == "")

/-- Python truthiness of an `Optional[List[str]]` value: `None` and `[]` are falsy. -/
def optListTruthy : Option (List String) → Bool
  | none => false
  | some l => !l.isEmpty

/-! ## Model catalog and credential state (src/agentforge/utils/model_manager.py) -/

/-- The per-model record stored in `ModelManager.available_models`
(`type`, `category`, `capabilities`). -/
structure MInfo where
  mtype : String
  category : String
  capabilities : List String
deriving DecidableEq, Repr

/-- `available_models["openai"]`, in dict insertion order. -/
def openaiModels : List (String × MInfo) :=
  [("gpt-4", ⟨"chat", "openai", ["conversation", "analysis", "creation"]⟩),
   ("gpt-3.5-turbo", ⟨"chat", "openai", ["conversation", "analysis"]⟩)]

/-- `available_models["anthropic"]`, in dict insertion order. -/
def anthropicModels : List (String × MInfo) :=
  [("claude-2", ⟨"chat", "anthropic", ["conversation", "analysis", "creation"]⟩),
   ("claude-instant-1", ⟨"chat", "anthropic", ["conversation"]⟩)]

/-- Credential state of a `ModelManager`: which provider API keys are present
(a key is "present" when it is a truthy string).  `active_models` is derived
from this state exactly as `__init__` and `set_api_key` maintain it. -/
structure ModelManager where
  openaiKey : Bool
  anthropicKey : Bool
deriving DecidableEq, Repr

/-- `ModelManager.__init__`: raises `ValueError` unless at least one key is given. -/
def ModelManager.init (openaiKey anthropicKey : Bool) : Except String ModelManager :=
  if openaiKey || anthropicKey then .ok ⟨openaiKey, anthropicKey⟩
  else .error "At least one of OpenAI or Anthropic API key must be provided"

/-- `ModelManager.set_api_key`: a truthy key activates the provider's models,
a falsy key removes the provider from `active_models`. -/
def ModelManager.set_api_key (mm : ModelManager) (provider key : String) :
    Except String ModelManager :=
  if provider == "openai" then .ok { mm with openaiKey := !(key == "") }
  else if provider == "anthropic" then .ok { mm with anthropicKey := !(key == "") }
  else .error ("Unsupported provider: " ++ provider)

/-- `self.active_models`: providers whose key is present, with their model tables,
in the dict order `openai`, `anthropic`. -/
def ModelManager.activeModels (mm : ModelManager) :
    List (String × List (String × MInfo)) :=
  (if mm.openaiKey then [("openai", openaiModels)] else []) ++
  (if mm.anthropicKey then [("anthropic", anthropicModels)] else [])

/-- One entry of the `available_models` dict built during selection:
model name, owning provider, and model info. -/
structure MEntry where
  name : String
  provider : String
  info : MInfo
deriving DecidableEq, Repr

/-- Flatten `active_models` in iteration order into `available_models` entries
(the Python dict is keyed by model name; names are unique across the catalog,
so insertion order is provider order then model order). -/
def flatEntries (active : List (String × List (String × MInfo))) : List MEntry :=
  active.flatMap (fun pm => pm.2.map (fun ni => ⟨ni.1, pm.1, ni.2⟩))

/-- The `(not model_type or info["type"] == model_type) and
(not model_category or info["category"] == model_category)` filter.
`none` models the falsy hint (`None` or `""`). -/
def matchesTC (modelType modelCategory : Option String) (i : MInfo) : Bool :=
  (match modelType with
   | none => true
   | some t => i.mtype == t) &&
  (match modelCategory with
   | none => true
   | some c => i.category == c)

/-- Events yielded by `select_model_with_progress`. -/
inductive MMEvent where
  | workflow (step content : String)
  | modelSelected (name provider : String) (temperature : ℚ)
deriving DecidableEq, Repr

/-- How `select_model_with_progress` terminates: either a model was selected
(the payload of the final `model_selected` event) or `ValueError` was raised. -/
inductive SelectOutcome where
  | selected (name provider : String) (temperature : ℚ)
  | raised (msg : String)
deriving DecidableEq, Repr

/-- The `for provider, models in self.active_models.items(): if preferred_model
in models` scan: first active provider whose table holds the preferred name. -/
def findPreferred (active : List (String × List (String × MInfo)))
    (pref : String) : Option String :=
  match active with
  | [] => none
  | (prov, models) :: rest =>
    if models.any (fun ni => ni.1 == pref) then some prov
    else findPreferred rest pref

/-- `preferred_models = ["gpt-4", "claude-2", "gpt-3.5-turbo", "claude-instant-1"]`. -/
def preferredOrder : List String :=
  ["gpt-4", "claude-2", "gpt-3.5-turbo", "claude-instant-1"]

/-- First name of `prefs` that occurs in `avail` (the `for model in
preferred_models: if model in available_models` scan). -/
def firstIn (prefs avail : List String) : Option String :=
  match prefs with
  | [] => none
  | p :: ps => if p ∈ avail then some p else firstIn ps avail

/-- `available_models[name]["provider"]` lookup on the built entry list. -/
def provOf (entries : List MEntry) (name : String) : String :=
  match entries.find? (fun e => e.name == name) with
  | some e => e.provider
  | none => ""

/-- The `available_models` dict after the type/category filter. -/
def tcFiltered (mm : ModelManager) (modelType modelCategory : Option String) :
    List MEntry :=
  (flatEntries mm.activeModels).filter
    (fun e => matchesTC modelType modelCategory e.info)

/-- The `available_models` dict after the widen-on-empty fallback (`if not
available_models: use all active models`). -/
def widened (mm : ModelManager) (modelType modelCategory : Option String) :
    List MEntry :=
  if (tcFiltered mm modelType modelCategory).isEmpty then
    flatEntries mm.activeModels
  else tcFiltered mm modelType modelCategory

/-- The `capable_models` dict: candidates whose capability set contains every
required capability. -/
def capableFiltered (mm : ModelManager) (caps : Option (List String))
    (modelType modelCategory : Option String) : List MEntry :=
  (widened mm modelType modelCategory).filter (fun e =>
    (caps.getD []).all (fun c => c ∈ e.info.capabilities))

/-- The final candidate set after the capability filter with its
`capable_models or available_models` fallback. -/
def gracefulCandidates (mm : ModelManager) (caps : Option (List String))
    (modelType modelCategory : Option String) : List MEntry :=
  if optListTruthy caps then
    if (capableFiltered mm caps modelType modelCategory).isEmpty then
      widened mm modelType modelCategory
    else capableFiltered mm caps modelType modelCategory
  else widened mm modelType modelCategory

/-- Catalog lookup across both providers (model names are unique). -/
def catalogInfo (name : String) : Option MInfo :=
  ((openaiModels ++ anthropicModels).find? (fun ni => ni.1 == name)).map
    (fun ni => ni.2)

/-- The candidate phase of `select_model_with_progress` (everything after the
preferred-model check): type/category filter, widen-on-empty fallback, raise
when no active models, capability filter with `or` fallback, then the fixed
preference-order scan with first-available fallback. -/
def gracefulSelect (mm : ModelManager) (caps : Option (List String)) (temperature : ℚ)
    (modelType modelCategory : Option String) : List MMEvent × SelectOutcome :=
  let evFilter := MMEvent.workflow "filtering"
    "🔍 Filtering available models based on requirements..."
  let a1 := tcFiltered mm modelType modelCategory
  let fallbackEvs := if a1.isEmpty then
      [MMEvent.workflow "fallback"
        "⚠️ No models match specific filters, considering all available models..."]
    else []
  let a2 := widened mm modelType modelCategory
  if a2.isEmpty then
    ([evFilter] ++ fallbackEvs ++
      [MMEvent.workflow "error" "❌ Error: No models available with current API keys"],
     .raised "No models available with current API keys")
  else
    let capEvs := if optListTruthy caps then
        [MMEvent.workflow "capabilities"
          ("🔍 Checking models for required capabilities: " ++
            String.intercalate ", " (caps.getD []))]
      else []
    let a3 := gracefulCandidates mm caps modelType modelCategory
    let evSelecting := MMEvent.workflow "selecting"
      "🎯 Selecting optimal model from available options..."
    match firstIn preferredOrder (a3.map MEntry.name) with
    | some n =>
      ([evFilter] ++ fallbackEvs ++ capEvs ++ [evSelecting,
        MMEvent.workflow "selected"
          ("✅ Selected model: " ++ n ++ " from " ++ provOf a3 n),
        MMEvent.modelSelected n (provOf a3 n) temperature],
       .selected n (provOf a3 n) temperature)
    | none =>
      match a3 with
      | [] =>
        -- unreachable: a3 is nonempty whenever a2 is
        ([evFilter] ++ fallbackEvs ++ capEvs ++ [evSelecting],
         .raised "No models available with current API keys")
      | e :: _ =>
        ([evFilter] ++ fallbackEvs ++ capEvs ++ [evSelecting,
          MMEvent.workflow "fallback_selected"
            ("⚠️ Selected fallback model: " ++ e.name ++ " from " ++ e.provider),
          MMEvent.modelSelected e.name e.provider temperature],
         .selected e.name e.provider temperature)

/-- `ModelManager.select_model_with_progress`, as the list of events yielded
before the generator returns or raises, together with its outcome. -/
def select_model_with_progress (mm : ModelManager) (preferredModel : Option String)
    (caps : Option (List String)) (temperature : ℚ)
    (modelType modelCategory : Option String) : List MMEvent × SelectOutcome :=
  let evInit := MMEvent.workflow "init" "🔄 Initializing model selection process..."
  if optStrTruthy preferredModel then
    let p := preferredModel.getD ""
    let evCheck := MMEvent.workflow "check_preferred"
      ("🔍 Checking availability of preferred model: " ++ p)
    match findPreferred mm.activeModels p with
    | some prov =>
      ([evInit, evCheck,
        MMEvent.workflow "selected"
          ("✅ Selected preferred model: " ++ p ++ " from " ++ prov),
        MMEvent.modelSelected p prov temperature],
       .selected p prov temperature)
    | none =>
      let rest := gracefulSelect mm caps temperature modelType modelCategory
      ([evInit, evCheck] ++ rest.1, rest.2)
  else
    let rest := gracefulSelect mm caps temperature modelType modelCategory
    ([evInit] ++ rest.1, rest.2)

/-- First `model_selected` event of a yielded sequence, as consumed by the
legacy `select_model` wrapper. -/
def firstSelected : List MMEvent → Option (String × String)
  | [] => none
  | .modelSelected n p _ :: _ => some (n, p)
  | .workflow _ _ :: rest => firstSelected rest

/-- `ModelManager.select_model`: scan the progress events for the first
`model_selected` update and return its name/provider; if the generator raised
first, the exception propagates; if the generator finished without selecting,
fall back to `("gpt-4", "openai")`. -/
def select_model (mm : ModelManager) (preferredModel : Option String)
    (caps : Option (List String)) (temperature : ℚ) :
    Except String (String × String) :=
  let r := select_model_with_progress mm preferredModel caps temperature none none
  match firstSelected r.1 with
  | some np => .ok np
  | none =>
    match r.2 with
    | .raised msg => .error msg
    | .selected _ _ _ => .ok ("gpt-4", "openai")

/-! ## Stream events (manager assistant and orchestrator)

Python events are dicts `{"type": ..., "message"/"content"/"error": ...}`;
we keep the type tag and the single textual payload (whichever of
`message`/`content`/`error` the producer fills). -/

structure Event where
  etype : String
  payload : String
deriving DecidableEq, Repr

/-- Shorthand for a `{"type": "thinking", "message": m}` event. -/
def thinkingEv (m : String) : Event := ⟨"thinking", m⟩

/-! ## ManagerAssistant (src/agentforge/agents/manager_assistant.py) -/

/-- The explicit web-search trigger phrases of `analyze_requirements`. -/
def webTriggers : List String :=
  ["/web", "/search", "search the web", "look up online", "check online",
   "find on the internet"]

/-- `any(trigger in query.lower() for trigger in [...])`. -/
def hasWebTrigger (query : String) : Bool :=
  webTriggers.any (fun t => strContains (lowerStr query) t)

/-- The fields of the requirements dict produced by `analyze_requirements`
that `stream_process` reads. -/
structure Analysis where
  needsWebSearch : Bool
  needsSpecialists : Bool
  primaryExpertise : String
  requiredTools : List String
  searchQueries : List String
  confidenceWithoutWeb : ℚ
deriving DecidableEq, Repr

/-- The `0.6` confidence threshold. -/
def webThreshold : ℚ := mkRat 6 10

/-- `ManagerAssistant.analyze_requirements`: the LLM call either raises
(`.error`), returns unparseable JSON (`.ok none`, giving the literal fallback
dict — its `primary_expertise_needed` is Python `None`, rendered "None" in
messages and unused otherwise since `needs_specialists` is false), or returns
a parsed dict (`.ok (some a)`), whose `needs_web_search` is overridden by
`explicit or (confidence_without_web < 0.6 and needs_web_search)`. -/
def analyze_requirements (query : String)
    (llm : Except String (Option Analysis)) : Except String Analysis :=
  match llm with
  | .error e => .error e
  | .ok none => .ok ⟨hasWebTrigger query, false, "None", [], [query], 1⟩
  | .ok (some a) =>
    .ok { a with needsWebSearch :=
      hasWebTrigger query ||
        (decide (a.confidenceWithoutWeb < webThreshold) && a.needsWebSearch) }

/-- Python `True`/`False` rendering inside f-strings. -/
def pyBool : Bool → String
  | true => "True"
  | false => "False"

/-- The analysis-complete thinking message of `stream_process`. -/
def analysisMsg (r : Analysis) : String :=
  "📊 Analysis complete:\n- Needs specialists: " ++ pyBool r.needsSpecialists ++
  "\n- Primary expertise: " ++ r.primaryExpertise ++
  "\n- Tools needed: " ++ String.intercalate ", " r.requiredTools

/-- One entry of `get_all_assistants()` as read by the specialist scan
(name plus expertise list). -/
structure AssistantCfg where
  name : String
  expertise : List String
deriving DecidableEq, Repr

/-- `[a for a in available_assistants if any(exp.lower() in
primary_expertise.lower() for exp in a["expertise"])]`. -/
def matchingSpecialists (assistants : List AssistantCfg) (primary : String) :
    List AssistantCfg :=
  assistants.filter (fun a =>
    a.expertise.any (fun e => strContains (lowerStr primary) (lowerStr e)))

/-- Oracle inputs for one `ManagerAssistant.stream_process` run: the analysis
LLM call, the (create + process) of the consulted specialist, the total
`web_search` helper (it catches its own exceptions and returns an error
string), and the chunk sequence of the final `call_with_tools` invocation
together with whether it re-raised after its chunks. -/
structure ManagerOracle where
  analysis : Except String (Option Analysis)
  specialist : Except String String
  webResult : String → String
  finalChunks : List Event
  finalRaise : Option String

/-- Step 2 of `stream_process`: the specialist consultation events and the
captured `specialist_data`.  A specialist exception is caught and reported
as a `thinking` event. -/
def specialistPhase (assistants : List AssistantCfg) (req : Analysis)
    (spec : Except String String) : List Event × Option String :=
  if req.needsSpecialists then
    let ev1 := thinkingEv
      ("👥 Looking for specialists in " ++ req.primaryExpertise ++ "...")
    match matchingSpecialists assistants req.primaryExpertise with
    | [] => ([ev1], none)
    | s :: _ =>
      let ev2 := thinkingEv ("🤝 Consulting " ++ s.name ++ "...")
      match spec with
      | .error e =>
        ([ev1, ev2, thinkingEv ("⚠️ Error consulting specialist: " ++ e)], none)
      | .ok data =>
        ([ev1, ev2, thinkingEv ("📝 Received specialist input from " ++ s.name)],
         some data)
  else ([], none)

/-- Python falsiness of `specialist_data` (`None` or the empty string). -/
def isFalsyData : Option String → Bool
  | none => true
  | some s => s == ""

/-- Step 3 of `stream_process`: web search when explicitly needed or when no
specialist data arrived and confidence is below `0.6`. -/
def webPhase (req : Analysis) (specialistData : Option String)
    (webResult : String → String) : List Event × Option String :=
  if req.needsWebSearch ||
      (isFalsyData specialistData &&
        decide (req.confidenceWithoutWeb < webThreshold)) then
    (thinkingEv "🌐 Additional information needed, performing web search..." ::
      req.searchQueries.map (fun q => thinkingEv ("🔍 Searching for: " ++ q)) ++
      [thinkingEv "✅ Web search complete"],
     some (String.intercalate "\n\n" (req.searchQueries.map webResult)))
  else ([], none)

/-- Step 4 of `stream_process`: the generation thinking event, the `content`
events built from the `response`-typed chunks of the final model call, and
either the closing thinking event or — when the model call raised — the
`error` event produced by the surrounding `except`. -/
def finalPhase (chunks : List Event) (raised : Option String) : List Event :=
  thinkingEv "✨ Generating comprehensive response..." ::
  (chunks.filter (fun c => c.etype == "response")).map
    (fun c => Event.mk "content" c.payload) ++
  (match raised with
   | some e => [Event.mk "error" e]
   | none => [thinkingEv "✅ Response complete!"])

/-- `ManagerAssistant.stream_process` as the list of emitted events.  An
analysis failure aborts via the outer `except` with an `error` event; all
later steps run unconditionally in sequence. -/
def managerStream (assistants : List AssistantCfg) (query : String)
    (o : ManagerOracle) : List Event :=
  let ev0 := thinkingEv "🤔 Analyzing query requirements..."
  match analyze_requirements query o.analysis with
  | .error e => [ev0, Event.mk "error" e]
  | .ok req =>
    let sp := specialistPhase assistants req o.specialist
    let wp := webPhase req sp.2 o.webResult
    ev0 :: thinkingEv (analysisMsg req) ::
      (sp.1 ++ wp.1 ++ finalPhase o.finalChunks o.finalRaise)

/-- `ManagerAssistant.process`: collect the `content` chunks of
`stream_process` in order and join them. -/
def manager_process (assistants : List AssistantCfg) (query : String)
    (o : ManagerOracle) : String :=
  String.join ((managerStream assistants query o).foldl
    (fun acc c => if c.etype == "content" then acc ++ [c.payload] else acc) [])

/-! ## Dynamic assistants and the orchestrator
(src/agentforge/agents/manager_assistant.py `create_assistant`,
src/agentforge/core/orchestrator.py) -/

/-- Oracle for one `DynamicAssistant.stream_process` run: the chunks of its
`call_with_tools` invocation and whether that call re-raised. -/
structure DynOracle where
  chunks : List Event
  raised : Option String

/-- `DynamicAssistant.stream_process` (the registry agents created by
`create_assistant`): thinking events, `content` events from `response`
chunks, then the completion thinking event, or an `error` event when the
model call raised. -/
def dynamicStream (name : String) (o : DynOracle) : List Event :=
  thinkingEv ("🔍 " ++ name ++ " analyzing query...") ::
  thinkingEv ("💭 " ++ name ++ " formulating response...") ::
  (o.chunks.filter (fun c => c.etype == "response")).map
    (fun c => Event.mk "content" c.payload) ++
  (match o.raised with
   | some e => [Event.mk "error" ("Error processing query: " ++ e)]
   | none => [thinkingEv ("✅ " ++ name ++ "\x27s response complete")])

/-- Python `str.title()` for ASCII text: uppercase a letter that follows a
non-letter, lowercase the rest. -/
def pyTitleGo : Bool → List Char → List Char
  | _, [] => []
  | prevAlpha, c :: rest =>
    (if prevAlpha then c.toLower else c.toUpper) :: pyTitleGo c.isAlpha rest

/-- Python `str.title()`. -/
def pyTitle (s : String) : String := String.mk (pyTitleGo false s.toList)

/-- Python `str.replace(a, b)` for single characters. -/
def replaceChar (a b : Char) (s : String) : String :=
  String.mk (s.toList.map (fun c => if c == a then b else c))

/-- A registered agent: its registry key is the pair's first component, the
record keeps the display name (`agent.name`) and its stream oracle. -/
structure RegAgent where
  displayName : String
  oracle : DynOracle

/-- One pass of the `get_agent` loop body for a single name variation:
registry-key lookup first, then display-name (case-insensitive) lookup. -/
def lookupVariation (registry : List (String × RegAgent)) (v : String) :
    Option RegAgent :=
  match registry.find? (fun kv => kv.1 == v) with
  | some kv => some kv.2
  | none =>
    (registry.find? (fun kv =>
      lowerStr kv.2.displayName == lowerStr v)).map (fun kv => kv.2)

/-- The `name_variations` list of `AgentOrchestrator.get_agent`. -/
def nameVariations (n : String) : List String :=
  [n, lowerStr n, pyTitle n, replaceChar ' ' '_' (lowerStr n),
   pyTitle (replaceChar '_' ' ' (lowerStr n))]

/-- `AgentOrchestrator.get_agent`: try each name variation in order. -/
def get_agent (registry : List (String × RegAgent)) (n : String) :
    Option RegAgent :=
  (nameVariations n).foldl
    (fun acc v => acc.orElse (fun _ => lookupVariation registry v)) none

/-- `AgentOrchestrator.stream_process`: a truthy `agent_name` routes to the
named registry agent (or yields a single `error` event and stops when the
lookup fails); otherwise the manager assistant coordinates. -/
def orchestratorStream (registry : List (String × RegAgent))
    (assistants : List AssistantCfg) (query : String)
    (agentName : Option String) (mo : ManagerOracle) : List Event :=
  if optStrTruthy agentName then
    match get_agent registry (agentName.getD "") with
    | none =>
      [Event.mk "error" ("Agent \x27" ++ agentName.getD "" ++ "\x27 not found")]
    | some a =>
      Event.mk "status" ("Using specified agent: " ++ agentName.getD "") ::
        dynamicStream a.displayName a.oracle
  else
    Event.mk "status" "Analyzing query and selecting appropriate agents..." ::
      managerStream assistants query mo

/-- `AgentOrchestrator.process_query`: collect the `content` chunks of
`stream_process` in order and join them. -/
def process_query (registry : List (String × RegAgent))
    (assistants : List AssistantCfg) (query : String)
    (agentName : Option String) (mo : ManagerOracle) : String :=
  String.join ((orchestratorStream registry assistants query agentName mo).foldl
    (fun acc c => if c.etype == "content" then acc ++ [c.payload] else acc) [])

/-! ## Confidence scoring
(src/agentforge/agents/specialized_agent.py `SpecializedAgent.can_handle`,
src/agentforge/agents/construction_coordinator.py
`ConstructionCoordinator.can_handle`) -/

/-- `SpecializedAgent.can_handle`, parameterized by the agent's `task_types`
and `keywords`: normalized overlap `total_matches / total_items` capped at 1,
with 0 for an agent that has neither task types nor keywords. -/
def SpecializedAgent.can_handle (taskTypes keywords : List String)
    (query : String) : ℚ :=
  let ql := lowerStr query
  let taskMatches := (taskTypes.filter (fun t => strContains ql (lowerStr t))).length
  let keywordMatches :=
    (keywords.filter (fun k => strContains ql (lowerStr k))).length
  if taskTypes.isEmpty && keywords.isEmpty then 0
  else
    let totalItems := taskTypes.length + keywords.length
    let totalMatches := taskMatches + keywordMatches
    min (if 0 < totalItems then (totalMatches : ℚ) / totalItems else 0) 1

/-- The `coordination_keywords` list of `ConstructionCoordinator.can_handle`. -/
def coordinationKeywords : List String :=
  ["coordinate", "manage", "oversee", "plan", "schedule", "timeline",
   "resource", "budget", "quality", "document", "report", "stakeholder"]

/-- The gating construction-context word list of
`ConstructionCoordinator.can_handle`. -/
def constructionContextWords : List String :=
  ["construction", "project", "site", "build", "contractor", "subcontractor",
   "permit", "inspection", "drawing", "specification"]

/-- `ConstructionCoordinator.can_handle`: 0 when no construction-context word
occurs in the query, otherwise `min(min(matches/12, 0.8) + 0.2, 1.0)`. -/
def ConstructionCoordinator.can_handle (query : String) : ℚ :=
  let ql := lowerStr query
  let keywordMatches :=
    (coordinationKeywords.filter (fun k => strContains ql k)).length
  let constructionContext :=
    constructionContextWords.any (fun w => strContains ql w)
  if !constructionContext then 0
  else
    let baseScore :=
      min ((keywordMatches : ℚ) / coordinationKeywords.length) (mkRat 8 10)
    let contextBoost := if constructionContext then mkRat 2 10 else 0
    min (baseScore + contextBoost) 1

/-! ## Workflow configuration
(src/agentforge/assistants/configs/manager_config.py) -/

/-- `WORKFLOW_STEPS["quality_review"]["max_revisions"]`. -/
def qualityReviewMaxRevisions : Nat := 5

/-- How many times one `ManagerAssistant.stream_process` run awaits
`specialist_agent.process`: once when specialists are needed and at least one
matches, otherwise zero (the code contains no review/revise re-invocation). -/
def specialistInvocations (assistants : List AssistantCfg) (req : Analysis) :
    Nat :=
  if req.needsSpecialists then
    if (matchingSpecialists assistants req.primaryExpertise).isEmpty then 0
    else 1
  else 0

/-- Specialist invocation count of a whole `stream_process` run (zero when the
analysis step raises). -/
def managerSpecialistCalls (assistants : List AssistantCfg) (query : String)
    (o : ManagerOracle) : Nat :=
  match analyze_requirements query o.analysis with
  | .error _ => 0
  | .ok req => specialistInvocations assistants req

/-- Number of events of a given type in a stream. -/
def countType (t : String) (evs : List Event) : Nat :=
  (evs.filter (fun e => e.etype == t)).length

/-! ## Concrete fixtures used by witnesses and counterexamples -/

/-- A minimal manager oracle: the analysis LLM answers unparseable JSON, the
specialist succeeds with an empty reply, searches return nothing, the final
model call yields no chunks and does not raise. -/
def trivialOracle : ManagerOracle := ⟨.ok none, .ok "", fun _ => "", [], none⟩

/-- A one-specialist assistant roster. -/
def safetyAssistants : List AssistantCfg := [⟨"Bob", ["safety"]⟩]

/-- A parsed analysis that requests a specialist and nothing else. -/
def safetyAnalysis : Analysis := ⟨false, true, "safety expertise", [], [], 1⟩

/-- An oracle whose specialist raises and whose final model call streams one
response chunk. -/
def failingSpecialistOracle : ManagerOracle :=
  ⟨.ok (some safetyAnalysis), .error "boom", fun _ => "",
   [⟨"response", "ok "⟩], none⟩

/-! # Theorems -/

theorem collectContent_eq (evs : List Event) (acc : List String) :
    evs.foldl (fun a c => if c.etype == "content" then a ++ [c.payload] else a)
        acc =
      acc ++ (evs.filter (fun c => c.etype == "content")).map Event.payload := by
  induction evs generalizing acc with
  | nil => simp
  | cons e rest ih =>
    simp only [List.foldl_cons, List.filter_cons]
    by_cases h : e.etype == "content"
    · rw [if_pos h, if_pos h, ih]
      simp
    · rw [if_neg h, if_neg h, ih]

/-- C10: the non-streaming entry points (`AgentOrchestrator.process_query`,
`ManagerAssistant.process`) return exactly the in-order concatenation of the
`content` payloads of the `content`-typed events of the corresponding
streaming entry point on the same inputs; all other event types are
discarded. -/
theorem process_query_concats_stream_content
    (registry : List (String × RegAgent)) (assistants : List AssistantCfg)
    (query : String) (agentName : Option String) (mo : ManagerOracle) :
    process_query registry assistants query agentName mo =
      String.join (((orchestratorStream registry assistants query agentName
        mo).filter (fun c => c.etype == "content")).map Event.payload) ∧
    manager_process assistants query mo =
      String.join (((managerStream assistants query mo).filter
        (fun c => c.etype == "content")).map Event.payload) := by
  constructor
  · unfold process_query
    rw [collectContent_eq]
    simp
  · unfold manager_process
    rw [collectContent_eq]
    simp

theorem specialistPhase_types (assistants : List AssistantCfg) (req : Analysis)
    (spec : Except String String) :
    ∀ e ∈ (specialistPhase assistants req spec).1, e.etype = "thinking" := by
  intro e he
  unfold specialistPhase at he
  split at he
  · split at he
    · simp only [List.mem_singleton] at he
      subst he; rfl
    · split at he <;>
        · simp only [List.mem_cons, List.not_mem_nil, or_false] at he
          rcases he with h | h | h <;> (subst h; rfl)
  · simp at he

theorem webPhase_types (req : Analysis) (sd : Option String)
    (wr : String → String) :
    ∀ e ∈ (webPhase req sd wr).1, e.etype = "thinking" := by
  intro e he
  unfold webPhase at he
  split at he
  · rcases List.mem_append.mp he with h | h
    · rcases List.mem_cons.mp h with rfl | h
      · rfl
      · rcases List.mem_map.mp h with ⟨q, _, rfl⟩; rfl
    · rcases List.mem_singleton.mp h with rfl; rfl
  · simp at he

theorem finalPhase_types (chunks : List Event) (raised : Option String) :
    ∀ e ∈ finalPhase chunks raised,
      e.etype = "thinking" ∨ e.etype = "content" ∨ e.etype = "error" := by
  intro e he
  cases raised with
  | none =>
    unfold finalPhase at he
    rcases List.mem_append.mp he with h | h
    · rcases List.mem_cons.mp h with rfl | h
      · left; rfl
      · rcases List.mem_map.mp h with ⟨c, _, rfl⟩; right; left; rfl
    · rcases List.mem_singleton.mp h with rfl; left; rfl
  | some msg =>
    unfold finalPhase at he
    rcases List.mem_append.mp he with h | h
    · rcases List.mem_cons.mp h with rfl | h
      · left; rfl
      · rcases List.mem_map.mp h with ⟨c, _, rfl⟩; right; left; rfl
    · rcases List.mem_singleton.mp h with rfl; right; right; rfl

theorem managerStream_types (assistants : List AssistantCfg) (query : String)
    (o : ManagerOracle) :
    ∀ e ∈ managerStream assistants query o,
      e.etype = "thinking" ∨ e.etype = "content" ∨ e.etype = "error" := by
  intro e he
  unfold managerStream at he
  split at he
  · simp only [List.mem_cons, List.not_mem_nil, or_false] at he
    rcases he with h | h <;> subst h
    · left; rfl
    · right; right; rfl
  · simp only [List.mem_cons, List.mem_append] at he
    rcases he with h | h | (h | h) | h
    · subst h; left; rfl
    · subst h; left; rfl
    · exact Or.inl (specialistPhase_types _ _ _ e h)
    · exact Or.inl (webPhase_types _ _ _ e h)
    · exact finalPhase_types _ _ e h

theorem dynamicStream_types (name : String) (o : DynOracle) :
    ∀ e ∈ dynamicStream name o,
      e.etype = "thinking" ∨ e.etype = "content" ∨ e.etype = "error" := by
  intro e he
  obtain ⟨chunks, raised⟩ := o
  cases raised with
  | none =>
    unfold dynamicStream at he
    rcases List.mem_append.mp he with h | h
    · rcases List.mem_cons.mp h with rfl | h
      · left; rfl
      rcases List.mem_cons.mp h with rfl | h
      · left; rfl
      · rcases List.mem_map.mp h with ⟨c, _, rfl⟩; right; left; rfl
    · rcases List.mem_singleton.mp h with rfl; left; rfl
  | some msg =>
    unfold dynamicStream at he
    rcases List.mem_append.mp he with h | h
    · rcases List.mem_cons.mp h with rfl | h
      · left; rfl
      rcases List.mem_cons.mp h with rfl | h
      · left; rfl
      · rcases List.mem_map.mp h with ⟨c, _, rfl⟩; right; left; rfl
    · rcases List.mem_singleton.mp h with rfl; right; right; rfl

theorem orchestratorStream_types (registry : List (String × RegAgent))
    (assistants : List AssistantCfg) (query : String)
    (agentName : Option String) (mo : ManagerOracle) :
    ∀ e ∈ orchestratorStream registry assistants query agentName mo,
      e.etype = "thinking" ∨ e.etype = "content" ∨ e.etype = "error" ∨
        e.etype = "status" := by
  intro e he
  unfold orchestratorStream at he
  split at he
  · split at he
    · simp only [List.mem_singleton] at he; subst he
      right; right; left; rfl
    · simp only [List.mem_cons] at he
      rcases he with h | h
      · subst h; right; right; right; rfl
      · rcases dynamicStream_types _ _ e h with h | h | h
        · exact Or.inl h
        · exact Or.inr (Or.inl h)
        · exact Or.inr (Or.inr (Or.inl h))
  · simp only [List.mem_cons] at he
    rcases he with h | h
    · subst h; right; right; right; rfl
    · rcases managerStream_types _ _ _ e h with h | h | h
      · exact Or.inl h
      · exact Or.inr (Or.inl h)
      · exact Or.inr (Or.inr (Or.inl h))

/-- C2 counterexample: a concrete request through
`AgentOrchestrator.stream_process` whose emitted event sequence contains zero
`done` events, not exactly one. -/
theorem orchestrator_done_count_not_one :
    ¬ countType "done" (orchestratorStream [] [] "hi" none trivialOracle)
        = 1 := by decide

/-- C2 amended: the core never emits a `done`-typed event at all — the event
vocabulary of `AgentOrchestrator.stream_process` is `thinking`, `content`,
`error`, `status`, and a stream simply ends by exhaustion (the SSE transport
layer appends its own `[DONE]` marker outside the event sequence). -/
theorem orchestrator_stream_no_done (registry : List (String × RegAgent))
    (assistants : List AssistantCfg) (query : String)
    (agentName : Option String) (mo : ManagerOracle) :
    countType "done" (orchestratorStream registry assistants query agentName mo)
      = 0 := by
  rw [countType, List.length_eq_zero, List.filter_eq_nil_iff]
  intro e he
  rcases orchestratorStream_types registry assistants query agentName mo e he
    with h | h | h | h <;> simp [h]

/-- C6 counterexample: with a concrete registry lacking the forced agent,
`stream_process` does not abort before the stream with an
`AgentNotFoundError` (no such exception type exists in the code); it emits
the failure as a single `error`-typed stream event. -/
theorem forced_agent_missing_not_exceptional :
    orchestratorStream [] [] "q" (some "ghost") trivialOracle ≠ [] ∧
    countType "error"
      (orchestratorStream [] [] "q" (some "ghost") trivialOracle) = 1 := by
  constructor <;> decide

/-- C6 amended: when the forced/explicit agent id resolves to no registry
agent (after all name variations), `stream_process` emits exactly one
`error` event naming the agent and terminates; the manager/scoring path is
bypassed entirely. -/
theorem forced_agent_missing_yields_error_event
    (registry : List (String × RegAgent)) (assistants : List AssistantCfg)
    (query n : String) (mo : ManagerOracle) (hn : ¬ n = "")
    (h : get_agent registry n = none) :
    orchestratorStream registry assistants query (some n) mo =
      [Event.mk "error" ("Agent \x27" ++ n ++ "\x27 not found")] := by
  have ht : optStrTruthy (some n) = true := by
    simp [optStrTruthy, hn]
  simp [orchestratorStream, ht, h]

/-- C6 witness: the amended statement at a concrete missing agent. -/
theorem forced_agent_missing_witness :
    orchestratorStream [] [] "q" (some "ghost") trivialOracle =
      [Event.mk "error" ("Agent \x27" ++ "ghost" ++ "\x27 not found")] :=
  forced_agent_missing_yields_error_event [] [] "q" "ghost" trivialOracle
    (by decide) (by rfl)

/-- C4: every confidence score returned by the scoring operations lies in
`[0, 1]`, and for the construction coordinator (whose gating domain-context
set is `constructionContextWords`) a query containing none of the gating
terms scores exactly 0, overriding the term-overlap computation. -/
theorem can_handle_scores_bounded (taskTypes keywords : List String)
    (q : String) :
    0 ≤ SpecializedAgent.can_handle taskTypes keywords q ∧
    SpecializedAgent.can_handle taskTypes keywords q ≤ 1 ∧
    0 ≤ ConstructionCoordinator.can_handle q ∧
    ConstructionCoordinator.can_handle q ≤ 1 ∧
    ((∀ w ∈ constructionContextWords, strContains (lowerStr q) w = false) →
      ConstructionCoordinator.can_handle q = 0) := by
  refine ⟨?_, ?_, ?_, ?_, ?_⟩
  · simp only [SpecializedAgent.can_handle]
    split
    · norm_num
    · refine le_min ?_ (by norm_num)
      split
      · positivity
      · norm_num
  · simp only [SpecializedAgent.can_handle]
    split
    · norm_num
    · exact min_le_right _ _
  · by_cases hctx :
      constructionContextWords.any (fun w => strContains (lowerStr q) w) = true
    · simp only [ConstructionCoordinator.can_handle, hctx, Bool.not_true,
        if_false, if_true]
      refine le_min ?_ (by norm_num)
      refine add_nonneg (le_min (by positivity) ?_) ?_
      · rw [Rat.mkRat_eq_divInt, Rat.divInt_eq_div]; norm_num
      · rw [Rat.mkRat_eq_divInt, Rat.divInt_eq_div]; norm_num
    · have hctx' :
        constructionContextWords.any (fun w => strContains (lowerStr q) w)
          = false := by simpa using hctx
      simp [ConstructionCoordinator.can_handle, hctx']
  · by_cases hctx :
      constructionContextWords.any (fun w => strContains (lowerStr q) w) = true
    · simp only [ConstructionCoordinator.can_handle, hctx, Bool.not_true,
        if_false, if_true]
      exact min_le_right _ _
    · have hctx' :
        constructionContextWords.any (fun w => strContains (lowerStr q) w)
          = false := by simpa using hctx
      simp [ConstructionCoordinator.can_handle, hctx']
  · intro hw
    have hctx' :
        constructionContextWords.any (fun w => strContains (lowerStr q) w)
          = false :=
      List.any_eq_false.mpr (fun w hwm => by simp [hw w hwm])
    simp [ConstructionCoordinator.can_handle, hctx']

/-- C4 witness: the bounds and the gating zero at concrete inputs. -/
theorem can_handle_scores_bounded_witness :
    ConstructionCoordinator.can_handle "hello there" = 0 ∧
    0 ≤ SpecializedAgent.can_handle ["safety"] [] "hello there" :=
  ⟨(can_handle_scores_bounded ["safety"] [] "hello there").2.2.2.2 (by decide),
   (can_handle_scores_bounded ["safety"] [] "hello there").1⟩

/-- C5: the configured maximum number of revisions
(`WORKFLOW_STEPS["quality_review"]["max_revisions"]`) is 5; one
`stream_process` run awaits the specialist at most once — so the number of
review-driven re-invocations is `calls - 1 = 0 ≤ 5` even for a response that
would fail any review — and whenever the analysis step completes, the run
reaches the final generation/delivery step regardless of the specialist
outcome instead of failing the request. -/
theorem revision_loop_bounded (assistants : List AssistantCfg) (query : String)
    (o : ManagerOracle) (r : Option Analysis) (ha : o.analysis = .ok r) :
    qualityReviewMaxRevisions = 5 ∧
    managerSpecialistCalls assistants query o ≤ 1 ∧
    managerSpecialistCalls assistants query o - 1
      ≤ qualityReviewMaxRevisions ∧
    thinkingEv "✨ Generating comprehensive response..." ∈
      managerStream assistants query o := by
  have hcalls : managerSpecialistCalls assistants query o ≤ 1 := by
    unfold managerSpecialistCalls
    split
    · exact Nat.zero_le 1
    · unfold specialistInvocations
      split
      · split
        · exact Nat.zero_le 1
        · exact Nat.le_refl 1
      · exact Nat.zero_le 1
  refine ⟨rfl, hcalls, by omega, ?_⟩
  cases r with
  | none => simp [managerStream, analyze_requirements, ha, finalPhase]
  | some a => simp [managerStream, analyze_requirements, ha, finalPhase]

/-- C5 witness: the bound and delivery membership at a concrete input. -/
theorem revision_loop_bounded_witness :
    managerSpecialistCalls [] "hi" trivialOracle ≤ 1 ∧
    thinkingEv "✨ Generating comprehensive response..." ∈
      managerStream [] "hi" trivialOracle :=
  ⟨(revision_loop_bounded [] "hi" trivialOracle none rfl).2.1,
   (revision_loop_bounded [] "hi" trivialOracle none rfl).2.2.2⟩

/-- C7 counterexample: a concrete run whose matched specialist raises — the
caught failure is reported as a `thinking` event, so the stream contains no
`error`-typed event at all, refuting "reported as a non-fatal error event";
the run still produces its `content` event. -/
theorem specialist_failure_no_error_event :
    failingSpecialistOracle.specialist = .error "boom" ∧
    countType "error"
      (managerStream safetyAssistants "help" failingSpecialistOracle) = 0 ∧
    countType "content"
      (managerStream safetyAssistants "help" failingSpecialistOracle) = 1 := by
  refine ⟨rfl, ?_, ?_⟩ <;> decide

/-- C7 amended: a specialist exception is caught and reported as a non-fatal
`thinking` event (message prefixed "⚠️ Error consulting specialist"), no
further candidate is tried, and processing continues unchanged to the
web-search/final-generation path with no specialist data; the request never
aborts because of the failure. -/
theorem specialist_failure_contained (assistants : List AssistantCfg)
    (query : String) (o : ManagerOracle) (req : Analysis) (s : AssistantCfg)
    (rest : List AssistantCfg) (msg : String)
    (ha : analyze_requirements query o.analysis = .ok req)
    (hs : req.needsSpecialists = true)
    (hm : matchingSpecialists assistants req.primaryExpertise = s :: rest)
    (he : o.specialist = .error msg) :
    managerStream assistants query o =
      thinkingEv "🤔 Analyzing query requirements..." ::
      thinkingEv (analysisMsg req) ::
      thinkingEv ("👥 Looking for specialists in " ++ req.primaryExpertise
        ++ "...") ::
      thinkingEv ("🤝 Consulting " ++ s.name ++ "...") ::
      thinkingEv ("⚠️ Error consulting specialist: " ++ msg) ::
      ((webPhase req none o.webResult).1 ++
        finalPhase o.finalChunks o.finalRaise) := by
  simp only [managerStream, ha, specialistPhase, hs, if_true, hm, he]
  simp

/-- C7 witness: the amended statement at the concrete failing run. -/
theorem specialist_failure_contained_witness :
    managerStream safetyAssistants "help" failingSpecialistOracle =
      [thinkingEv "🤔 Analyzing query requirements...",
       thinkingEv (analysisMsg safetyAnalysis),
       thinkingEv "👥 Looking for specialists in safety expertise...",
       thinkingEv "🤝 Consulting Bob...",
       thinkingEv "⚠️ Error consulting specialist: boom",
       thinkingEv "✨ Generating comprehensive response...",
       Event.mk "content" "ok ",
       thinkingEv "✅ Response complete!"] := by
  have h := specialist_failure_contained safetyAssistants "help"
    failingSpecialistOracle safetyAnalysis ⟨"Bob", ["safety"]⟩ [] "boom"
    rfl rfl rfl rfl
  exact h.trans (by decide)

/-- C8: for every query containing an explicit web-search marker, whenever
the analysis step completes (parseable or not), the run enters the
web-search step regardless of specialist availability or outcome, and the
web-search `thinking` event is preceded only by `thinking` events — in
particular it precedes every `content` event of the stream. -/
theorem web_trigger_enters_web_search (assistants : List AssistantCfg)
    (query : String) (o : ManagerOracle) (ra : Option Analysis)
    (hq : hasWebTrigger query = true) (ha : o.analysis = .ok ra) :
    ∃ pre post,
      managerStream assistants query o =
        pre ++ thinkingEv
          "🌐 Additional information needed, performing web search..." :: post ∧
      ∀ e ∈ pre, e.etype = "thinking" ∧ e.etype ≠ "content" := by
  unfold managerStream
  rw [ha]
  cases ra with
  | none =>
    simp only [analyze_requirements, hq]
    refine ⟨thinkingEv "🤔 Analyzing query requirements..." ::
      thinkingEv (analysisMsg ⟨true, false, "None", [], [query], 1⟩) ::
      (specialistPhase assistants ⟨true, false, "None", [], [query], 1⟩
        o.specialist).1, ?_, ?_, ?_⟩
    · exact ((webPhase ⟨true, false, "None", [], [query], 1⟩
        (specialistPhase assistants ⟨true, false, "None", [], [query], 1⟩
          o.specialist).2 o.webResult).1.tail ++
        finalPhase o.finalChunks o.finalRaise)
    · have hw : (webPhase ⟨true, false, "None", [], [query], 1⟩
          (specialistPhase assistants ⟨true, false, "None", [], [query], 1⟩
            o.specialist).2 o.webResult).1 =
          thinkingEv
            "🌐 Additional information needed, performing web search..." ::
          ([query].map (fun qq => thinkingEv ("🔍 Searching for: " ++ qq)) ++
            [thinkingEv "✅ Web search complete"]) := by
        simp [webPhase]
      rw [hw]
      simp [List.append_assoc]
    · intro e he
      rcases List.mem_cons.mp he with rfl | he
      · exact ⟨rfl, by decide⟩
      rcases List.mem_cons.mp he with rfl | he
      · exact ⟨rfl, by show ("thinking" : String) ≠ "content"; decide⟩
      · have := specialistPhase_types assistants
          ⟨true, false, "None", [], [query], 1⟩ o.specialist e he
        exact ⟨this, by rw [this]; decide⟩
  | some a =>
    simp only [analyze_requirements, hq, Bool.true_or]
    refine ⟨thinkingEv "🤔 Analyzing query requirements..." ::
      thinkingEv (analysisMsg { a with needsWebSearch := true }) ::
      (specialistPhase assistants { a with needsWebSearch := true }
        o.specialist).1, ?_, ?_, ?_⟩
    · exact ((webPhase { a with needsWebSearch := true }
        (specialistPhase assistants { a with needsWebSearch := true }
          o.specialist).2 o.webResult).1.tail ++
        finalPhase o.finalChunks o.finalRaise)
    · have hw : (webPhase { a with needsWebSearch := true }
          (specialistPhase assistants { a with needsWebSearch := true }
            o.specialist).2 o.webResult).1 =
          thinkingEv
            "🌐 Additional information needed, performing web search..." ::
          (a.searchQueries.map
            (fun qq => thinkingEv ("🔍 Searching for: " ++ qq)) ++
            [thinkingEv "✅ Web search complete"]) := by
        simp [webPhase]
      rw [hw]
      simp [List.append_assoc]
    · intro e he
      rcases List.mem_cons.mp he with rfl | he
      · exact ⟨rfl, by decide⟩
      rcases List.mem_cons.mp he with rfl | he
      · exact ⟨rfl, by show ("thinking" : String) ≠ "content"; decide⟩
      · have := specialistPhase_types assistants
          { a with needsWebSearch := true } o.specialist e he
        exact ⟨this, by rw [this]; decide⟩

/-- C8 witness: the property at the concrete query
`"/web latest interest rates"`. -/
theorem web_trigger_enters_web_search_witness :
    ∃ pre post,
      managerStream [] "/web latest interest rates" trivialOracle =
        pre ++ thinkingEv
          "🌐 Additional information needed, performing web search..." :: post ∧
      ∀ e ∈ pre, e.etype = "thinking" ∧ e.etype ≠ "content" :=
  web_trigger_enters_web_search [] "/web latest interest rates" trivialOracle
    none (by decide) rfl

theorem firstSelected_workflow_append (ws evs : List MMEvent)
    (h : ∀ e ∈ ws, ∃ s c, e = MMEvent.workflow s c) :
    firstSelected (ws ++ evs) = firstSelected evs := by
  induction ws with
  | nil => rfl
  | cons e rest ih =>
    rcases h e (List.mem_cons_self _ _) with ⟨s, c, rfl⟩
    simpa [firstSelected] using
      ih (fun x hx => h x (List.mem_cons_of_mem _ hx))

theorem mem_ite_workflow {c : Prop} [Decidable c] (s co : String) (e : MMEvent)
    (he : e ∈ if c then [MMEvent.workflow s co] else []) :
    ∃ a b, e = MMEvent.workflow a b := by
  split at he
  · simp only [List.mem_singleton] at he
    exact ⟨s, co, he⟩
  · simp at he

theorem flatEntries_ne_nil (mm : ModelManager)
    (h : mm.openaiKey = true ∨ mm.anthropicKey = true) :
    (flatEntries mm.activeModels).isEmpty = false := by
  obtain ⟨o, a⟩ := mm
  rcases h with h | h
  · cases h
    cases a <;> rfl
  · cases h
    cases o <;> rfl

theorem widened_ne (mm : ModelManager) (mt mc : Option String)
    (h : mm.openaiKey = true ∨ mm.anthropicKey = true) :
    (widened mm mt mc).isEmpty = false := by
  unfold widened
  split
  · exact flatEntries_ne_nil mm h
  · next hne => simpa using hne

theorem gracefulCandidates_ne (mm : ModelManager) (caps : Option (List String))
    (mt mc : Option String)
    (h : mm.openaiKey = true ∨ mm.anthropicKey = true) :
    gracefulCandidates mm caps mt mc ≠ [] := by
  have hw : widened mm mt mc ≠ [] := by simpa using widened_ne mm mt mc h
  unfold gracefulCandidates
  split
  · split
    · exact hw
    · next hne => simpa using hne
  · exact hw

theorem widened_subset (mm : ModelManager) (mt mc : Option String) (e : MEntry)
    (he : e ∈ widened mm mt mc) : e ∈ flatEntries mm.activeModels := by
  unfold widened at he
  split at he
  · exact he
  · unfold tcFiltered at he
    exact (List.mem_filter.mp he).1

theorem gracefulCandidates_subset (mm : ModelManager)
    (caps : Option (List String)) (mt mc : Option String) (e : MEntry)
    (he : e ∈ gracefulCandidates mm caps mt mc) :
    e ∈ flatEntries mm.activeModels := by
  unfold gracefulCandidates at he
  split at he
  · split at he
    · exact widened_subset mm mt mc e he
    · unfold capableFiltered at he
      exact widened_subset mm mt mc e (List.mem_filter.mp he).1
  · exact widened_subset mm mt mc e he

theorem flatEntries_provider (mm : ModelManager) (e : MEntry)
    (he : e ∈ flatEntries mm.activeModels) :
    (e.provider = "openai" ∧ mm.openaiKey = true) ∨
      (e.provider = "anthropic" ∧ mm.anthropicKey = true) := by
  obtain ⟨o, a⟩ := mm
  cases o <;> cases a
  · simp [flatEntries, ModelManager.activeModels] at he
  · simp [flatEntries, ModelManager.activeModels, openaiModels,
      anthropicModels] at he
    rcases he with rfl | rfl <;> simp
  · simp [flatEntries, ModelManager.activeModels, openaiModels,
      anthropicModels] at he
    rcases he with rfl | rfl <;> simp
  · simp [flatEntries, ModelManager.activeModels, openaiModels,
      anthropicModels] at he
    rcases he with rfl | rfl | rfl | rfl <;> simp

theorem flatEntries_name (mm : ModelManager) (e : MEntry)
    (he : e ∈ flatEntries mm.activeModels) : e.name ∈ preferredOrder := by
  obtain ⟨o, a⟩ := mm
  cases o <;> cases a
  · simp [flatEntries, ModelManager.activeModels] at he
  · simp [flatEntries, ModelManager.activeModels, openaiModels,
      anthropicModels] at he
    rcases he with rfl | rfl <;> decide
  · simp [flatEntries, ModelManager.activeModels, openaiModels,
      anthropicModels] at he
    rcases he with rfl | rfl <;> decide
  · simp [flatEntries, ModelManager.activeModels, openaiModels,
      anthropicModels] at he
    rcases he with rfl | rfl | rfl | rfl <;> decide

theorem findPreferred_none_not_mem (active : List (String × List (String × MInfo)))
    (p : String) (h : findPreferred active p = none) :
    ∀ e ∈ flatEntries active, ¬ e.name = p := by
  induction active with
  | nil => simp [flatEntries]
  | cons pm rest ih =>
    obtain ⟨prov, models⟩ := pm
    unfold findPreferred at h
    split at h
    · cases h
    · next hany =>
      intro e he
      simp only [flatEntries, List.flatMap_cons, List.mem_append] at he
      rcases he with he | he
      · rcases List.mem_map.mp he with ⟨ni, hni, rfl⟩
        have hany' : models.any (fun ni => ni.1 == p) = false := by
          rw [Bool.not_eq_true] at hany
          exact hany
        have := List.any_eq_false.mp hany' ni hni
        simpa using this
      · exact ih h e (by simpa [flatEntries] using he)

theorem firstIn_isSome (prefs avail : List String) (x : String)
    (hxa : x ∈ avail) (hxp : x ∈ prefs) : (firstIn prefs avail).isSome := by
  induction prefs with
  | nil => cases hxp
  | cons q qs ih =>
    unfold firstIn
    by_cases hq : q ∈ avail
    · simp [hq]
    · rw [if_neg hq]
      rcases List.mem_cons.mp hxp with rfl | hxp'
      · exact absurd hxa hq
      · exact ih hxp'

theorem firstIn_spec (prefs avail : List String) (n : String)
    (h : firstIn prefs avail = some n) :
    n ∈ avail ∧ ∃ pre post, prefs = pre ++ n :: post ∧
      ∀ m ∈ pre, m ∉ avail := by
  induction prefs with
  | nil => cases h
  | cons q qs ih =>
    unfold firstIn at h
    by_cases hq : q ∈ avail
    · rw [if_pos hq] at h
      cases h
      exact ⟨hq, [], qs, rfl, by simp⟩
    · rw [if_neg hq] at h
      obtain ⟨hna, pre, post, hdec, hpre⟩ := ih h
      refine ⟨hna, q :: pre, post, by rw [hdec]; rfl, ?_⟩
      intro m hm
      rcases List.mem_cons.mp hm with rfl | hm'
      · exact hq
      · exact hpre m hm'

theorem provOf_mem (entries : List MEntry) (n : String)
    (h : n ∈ entries.map MEntry.name) :
    ∃ e ∈ entries, e.name = n ∧ provOf entries n = e.provider := by
  induction entries with
  | nil => simp at h
  | cons e rest ih =>
    by_cases he : e.name == n
    · refine ⟨e, List.mem_cons_self _ _, by simpa using he, ?_⟩
      have hf : List.find? (fun x => x.name == n) (e :: rest) = some e :=
        List.find?_cons_of_pos _ he
      unfold provOf
      rw [hf]
    · have h' : n ∈ rest.map MEntry.name := by
        rcases List.mem_map.mp h with ⟨x, hx, rfl⟩
        rcases List.mem_cons.mp hx with rfl | hx'
        · exact absurd (by simp) he
        · exact List.mem_map.mpr ⟨x, hx', rfl⟩
      obtain ⟨x, hx, hxn, hpo⟩ := ih h'
      refine ⟨x, List.mem_cons_of_mem _ hx, hxn, ?_⟩
      have hf : List.find? (fun x => x.name == n) (e :: rest) =
          List.find? (fun x => x.name == n) rest :=
        List.find?_cons_of_neg _ (by simpa using he)
      unfold provOf at hpo ⊢
      rw [hf]
      exact hpo

theorem gracefulSelect_char (mm : ModelManager) (caps : Option (List String))
    (t : ℚ) (mt mc : Option String)
    (h : mm.openaiKey = true ∨ mm.anthropicKey = true) :
    ∃ n prov, (gracefulSelect mm caps t mt mc).2 = .selected n prov t ∧
      firstSelected (gracefulSelect mm caps t mt mc).1 = some (n, prov) ∧
      n ∈ (gracefulCandidates mm caps mt mc).map MEntry.name ∧
      ((prov = "openai" ∧ mm.openaiKey = true) ∨
        (prov = "anthropic" ∧ mm.anthropicKey = true)) ∧
      ∃ pre post, preferredOrder = pre ++ n :: post ∧
        ∀ m ∈ pre, m ∉ (gracefulCandidates mm caps mt mc).map MEntry.name := by
  obtain ⟨e0, a3rest, he0⟩ : ∃ x xs, gracefulCandidates mm caps mt mc = x :: xs := by
    cases hg : gracefulCandidates mm caps mt mc with
    | nil => exact absurd hg (gracefulCandidates_ne mm caps mt mc h)
    | cons x xs => exact ⟨x, xs, rfl⟩
  have he0mem : e0 ∈ gracefulCandidates mm caps mt mc := by
    rw [he0]; exact List.mem_cons_self _ _
  have hsome : (firstIn preferredOrder
      ((gracefulCandidates mm caps mt mc).map MEntry.name)).isSome :=
    firstIn_isSome _ _ e0.name (List.mem_map.mpr ⟨e0, he0mem, rfl⟩)
      (flatEntries_name mm e0 (gracefulCandidates_subset mm caps mt mc e0 he0mem))
  obtain ⟨n, hn⟩ := Option.isSome_iff_exists.mp hsome
  obtain ⟨hnmem, pre, post, hdec, hpre⟩ := firstIn_spec _ _ n hn
  obtain ⟨e1, he1mem, he1name, hprov⟩ := provOf_mem _ n hnmem
  have hprovc := flatEntries_provider mm e1
    (gracefulCandidates_subset mm caps mt mc e1 he1mem)
  have hw : (widened mm mt mc).isEmpty = false := widened_ne mm mt mc h
  refine ⟨n, provOf (gracefulCandidates mm caps mt mc) n, ?_, ?_,
    hnmem, by rw [hprov]; exact hprovc, pre, post, hdec, hpre⟩
  · simp only [gracefulSelect, hw, Bool.false_eq_true, if_false, hn]
  · simp only [gracefulSelect, hw, Bool.false_eq_true, if_false, hn]
    rw [firstSelected_workflow_append]
    · rfl
    · intro e he
      rcases List.mem_append.mp he with he' | he'
      · rcases List.mem_append.mp he' with he'' | he''
        · simp only [List.mem_singleton] at he''
          exact ⟨_, _, he''⟩
        · exact mem_ite_workflow _ _ _ he''
      · exact mem_ite_workflow _ _ _ he'

theorem select_model_with_progress_total (mm : ModelManager)
    (pref : Option String) (caps : Option (List String)) (t : ℚ)
    (mt mc : Option String)
    (h : mm.openaiKey = true ∨ mm.anthropicKey = true) :
    ∃ n p, (select_model_with_progress mm pref caps t mt mc).2 =
        .selected n p t ∧
      firstSelected (select_model_with_progress mm pref caps t mt mc).1 =
        some (n, p) := by
  by_cases hp : optStrTruthy pref = true
  · cases hfp : findPreferred mm.activeModels (pref.getD "") with
    | some prov =>
      refine ⟨pref.getD "", prov, ?_, ?_⟩ <;>
        simp [select_model_with_progress, hp, hfp, firstSelected]
    | none =>
      obtain ⟨n, p, ho, hf⟩ := gracefulSelect_char mm caps t mt mc h
      refine ⟨n, p, ?_, ?_⟩
      · simp [select_model_with_progress, hp, hfp, ho]
      · simp [select_model_with_progress, hp, hfp, firstSelected, hf.1]
  · obtain ⟨n, p, ho, hf⟩ := gracefulSelect_char mm caps t mt mc h
    refine ⟨n, p, ?_, ?_⟩
    · simp [select_model_with_progress, hp, ho]
    · simp [select_model_with_progress, hp, firstSelected, hf.1]

/-- C1 counterexample: a reachable credential state with no active provider
(constructed with one key, then the key removed through `set_api_key`) makes
`select_model_with_progress` raise
`ValueError("No models available with current API keys")`, and the legacy
`select_model` propagates the exception instead of returning the fixed
default model. -/
theorem select_model_raises_without_credentials :
    ModelManager.init true false = .ok ⟨true, false⟩ ∧
    ModelManager.set_api_key ⟨true, false⟩ "openai" "" = .ok ⟨false, false⟩ ∧
    select_model ⟨false, false⟩ none none 0 =
      .error "No models available with current API keys" ∧
    (select_model_with_progress ⟨false, false⟩ none none 0 none none).2 =
      .raised "No models available with current API keys" :=
  ⟨rfl, rfl, rfl, rfl⟩

/-- C1 amended: model selection never raises and always returns a model
whenever at least one provider credential is active (which the constructor
enforces); only a state with every credential removed raises. -/
theorem select_model_total_when_credentialed (o a : Bool)
    (pref : Option String) (caps : Option (List String)) (t : ℚ)
    (mt mc : Option String) (h : o = true ∨ a = true) :
    (∃ n p, (select_model_with_progress ⟨o, a⟩ pref caps t mt mc).2 =
      .selected n p t) ∧
    ∃ n p, select_model ⟨o, a⟩ pref caps t = .ok (n, p) := by
  obtain ⟨n, p, ho, _⟩ :=
    select_model_with_progress_total ⟨o, a⟩ pref caps t mt mc h
  obtain ⟨n', p', _, hf'⟩ :=
    select_model_with_progress_total ⟨o, a⟩ pref caps t none none h
  refine ⟨⟨n, p, ho⟩, n', p', ?_⟩
  simp only [select_model]
  rw [hf']

/-- C1 witness: the amended statement at a concrete credentialed state. -/
theorem select_model_total_witness :
    ∃ n p, select_model ⟨true, false⟩ none none 0 = .ok (n, p) :=
  (select_model_total_when_credentialed true false none none 0 none none
    (Or.inl rfl)).2

/-- C3 counterexample: with only an Anthropic credential,
`preferred_model="claude-instant-1"` and
`required_capabilities=["creation"]`, selection returns the preferred model
immediately even though its capability set lacks `"creation"` — the
capability check, alias resolution and temperature clamping of the claim do
not happen on the preferred-model path. -/
theorem preferred_capability_not_checked :
    (select_model_with_progress ⟨false, true⟩ (some "claude-instant-1")
        (some ["creation"]) 0 none none).2 =
      .selected "claude-instant-1" "anthropic" 0 ∧
    (catalogInfo "claude-instant-1").map
      (fun i => decide ("creation" ∈ i.capabilities)) = some false :=
  ⟨rfl, rfl⟩

/-- C3 amended: a preferred model is returned immediately exactly when its
literal name occurs in some credentialed provider's model table — no alias
resolution, no capability check and no type/category check are performed —
and the returned temperature is the caller's temperature unchanged (no
clamping). -/
theorem preferred_returned_when_active (mm : ModelManager) (p prov : String)
    (caps : Option (List String)) (t : ℚ) (mt mc : Option String)
    (hp : ¬ p = "") (h : findPreferred mm.activeModels p = some prov) :
    select_model_with_progress mm (some p) caps t mt mc =
      ([MMEvent.workflow "init" "🔄 Initializing model selection process...",
        MMEvent.workflow "check_preferred"
          ("🔍 Checking availability of preferred model: " ++ p),
        MMEvent.workflow "selected"
          ("✅ Selected preferred model: " ++ p ++ " from " ++ prov),
        MMEvent.modelSelected p prov t],
       .selected p prov t) := by
  have ht : optStrTruthy (some p) = true := by simp [optStrTruthy, hp]
  simp [select_model_with_progress, ht, h]

/-- C3 witness: the amended statement at the concrete capability-missing
preferred model. -/
theorem preferred_returned_when_active_witness :
    select_model_with_progress ⟨false, true⟩ (some "claude-instant-1")
        (some ["creation"]) 0 none none =
      ([MMEvent.workflow "init" "🔄 Initializing model selection process...",
        MMEvent.workflow "check_preferred"
          ("🔍 Checking availability of preferred model: " ++
            "claude-instant-1"),
        MMEvent.workflow "selected"
          ("✅ Selected preferred model: " ++ "claude-instant-1" ++ " from "
            ++ "anthropic"),
        MMEvent.modelSelected "claude-instant-1" "anthropic" 0],
       .selected "claude-instant-1" "anthropic" 0) :=
  preferred_returned_when_active ⟨false, true⟩ "claude-instant-1" "anthropic"
    (some ["creation"]) 0 none none (by decide) rfl

/-- C9: a preferred model that is in no credentialed provider's table is
never selected: the outcome equals the no-preferred-model outcome, and (with
at least one credential) the returned model differs from the preferred one,
belongs to a credentialed provider, and is the highest-priority candidate in
the fixed preference order `gpt-4, claude-2, gpt-3.5-turbo,
claude-instant-1` — no earlier-priority name is a candidate. -/
theorem uncredentialed_preferred_falls_through (mm : ModelManager)
    (p : String) (caps : Option (List String)) (t : ℚ) (mt mc : Option String)
    (hp : ¬ p = "") (hnf : findPreferred mm.activeModels p = none)
    (hcred : mm.openaiKey = true ∨ mm.anthropicKey = true) :
    (select_model_with_progress mm (some p) caps t mt mc).2 =
      (select_model_with_progress mm none caps t mt mc).2 ∧
    ∃ n prov, (select_model_with_progress mm (some p) caps t mt mc).2 =
        .selected n prov t ∧
      ¬ n = p ∧
      ((prov = "openai" ∧ mm.openaiKey = true) ∨
        (prov = "anthropic" ∧ mm.anthropicKey = true)) ∧
      ∃ pre post, preferredOrder = pre ++ n :: post ∧
        ∀ m ∈ pre,
          m ∉ (gracefulCandidates mm caps mt mc).map MEntry.name := by
  have ht : optStrTruthy (some p) = true := by simp [optStrTruthy, hp]
  have hb : (select_model_with_progress mm (some p) caps t mt mc).2 =
      (gracefulSelect mm caps t mt mc).2 := by
    simp [select_model_with_progress, ht, hnf]
  have hb0 : (select_model_with_progress mm none caps t mt mc).2 =
      (gracefulSelect mm caps t mt mc).2 := by
    simp [select_model_with_progress, optStrTruthy]
  obtain ⟨n, prov, ho, _, hnmem, hprov, pre, post, hdec, hpre⟩ :=
    gracefulSelect_char mm caps t mt mc hcred
  refine ⟨hb.trans hb0.symm, n, prov, hb.trans ho, ?_, hprov, pre, post,
    hdec, hpre⟩
  rcases List.mem_map.mp hnmem with ⟨e, hemem, rfl⟩
  exact findPreferred_none_not_mem mm.activeModels p hnf e
    (gracefulCandidates_subset mm caps mt mc e hemem)

/-- C9 witness: the scenario with only an OpenAI credential and an
Anthropic-only preferred model — selection falls through and returns
`gpt-4`, the highest-priority OpenAI model. -/
theorem uncredentialed_preferred_falls_through_witness :
    (select_model_with_progress ⟨true, false⟩ (some "claude-2") none 0 none
        none).2 =
      (select_model_with_progress ⟨true, false⟩ none none 0 none none).2 ∧
    (select_model_with_progress ⟨true, false⟩ (some "claude-2") none 0 none
        none).2 = .selected "gpt-4" "openai" 0 :=
  ⟨(uncredentialed_preferred_falls_through ⟨true, false⟩ "claude-2" none 0
      none none (by decide) rfl (Or.inl rfl)).1,
   by rfl⟩

end AgentForge
